import Mathlib

/-!
# Verification of the Datathon2025 law-frontend job lifecycle controller

Shallow embedding of `src/law-frontend/src/App.jsx`. The source file holds
two variants of the app: the *simulated* driver (timer-based local progress,
first part of the file) and the *live* driver (real network calls, second
part). Pure helpers (`isAllowed`, `pick`, the job-id generator, the progress
formula) are translated as Lean functions; the stateful controllers are
translated as explicit step functions over state records, with network
responses and timer firings modelled as external events.

Machine integers do not overflow in any of the translated code
(`Date.now()` fits a JS double exactly; all arithmetic is small), so Nat is
used throughout.
-/

namespace LawFrontend

/-! ## FileValidator (`isAllowed`, App.jsx line 55 / 589)

Source: `const isAllowed = (f) => !!f && /\.(html?|xml)$/i.test(f.name)`.
The regex `\.(html?|xml)$` with the `i` flag accepts exactly the names
whose lower-cased character list has `.htm`, `.html` or `.xml` as a
suffix. `f` may be absent (`e.target.files?.[0]`), hence `Option`. -/

/-- Lower-cased character list of a file name (the `i` regex flag folds
ASCII case on both sides; the pattern itself is lower-case). -/
def lowerData (s : String) : List Char := s.data.map Char.toLower

/-- Translation of `/\.(html?|xml)$/i.test(name)`: the pattern anchors at
the end of the string, so it matches iff one of the three literal
extensions is a suffix of the case-folded name. -/
def matchesAllowedExt (name : String) : Bool :=
  List.isSuffixOf ".htm".data (lowerData name) ||
  List.isSuffixOf ".html".data (lowerData name) ||
  List.isSuffixOf ".xml".data (lowerData name)

/-- `isAllowed` from the source: rejects a missing file, otherwise tests
the name against the extension regex. -/
def isAllowed : Option String → Bool
  | none => false
  | some name => matchesAllowedExt name

/-! ## Data model shared by both drivers -/

/-- The result payload `{summary, stocks, comment}` (opaque to the
controller). -/
structure ResultPayload where
  summary : String
  stocks : List String
  comment : String
  deriving DecidableEq, Repr

/-- Poll response body `{status, result_url?}` of `GET /jobs/{id}`
(`d` in `getJob`). `status` is carried verbatim as a string, exactly as
`setStatus(d.status)` copies it. -/
structure JobData where
  status : String
  result_url : Option String
  deriving DecidableEq, Repr

/-- JS truthiness of the optional string `d.result_url`: absent and `""`
are falsy, every other string is truthy. -/
def truthy : Option String → Bool
  | none => false
  | some u => u != ""

/-- Outcome of one `fetch` of `GET /jobs/{id}` as `getJob` distinguishes
them: a network/server error (rejected fetch or `!r.ok` other than 404),
a 404, or a parsed success body. -/
inductive PollOutcome
  | failure
  | notFound
  | success (d : JobData)
  deriving DecidableEq, Repr

/-! ## Live driver (second half of App.jsx, lines 581-843)

React state relevant to the controller, plus two pieces of control
bookkeeping: `phase` records where the async `start()` continuation is
suspended, and `intervalActive` whether `pollRef.current` holds a live
interval. `cancelPolling` (line 680) is
`clearInterval(pollRef.current); setBusy(false)` — it clears only the
interval and the busy flag, never the suspended `start()` continuation. -/

/-- Suspension point of the controller: `idle` (no submission sequence in
flight), the four awaits inside `start()`, and `polling` (sequence done,
interval created). -/
inductive Phase
  | idle
  | awaitCreate
  | awaitUpload
  | awaitGrace
  | awaitStart
  | polling
  deriving DecidableEq, Repr

/-- The live app state (the `useState` cells the controller touches). -/
structure LiveState where
  file : Option String
  error : Option String
  jobId : Option String
  status : Option String
  resultUrl : Option String
  busy : Bool
  phase : Phase
  intervalActive : Bool
  deriving DecidableEq, Repr

/-- Fresh app state, file already picked. -/
def liveInit (fileName : String) : LiveState :=
  { file := some fileName, error := none, jobId := none, status := none,
    resultUrl := none, busy := false, phase := Phase.idle,
    intervalActive := false }

/-- The submission sequence (`start()` between its first fetch and
`beginPolling`) is still in flight. -/
def inFlight : Phase → Bool
  | Phase.awaitCreate => true
  | Phase.awaitUpload => true
  | Phase.awaitGrace => true
  | Phase.awaitStart => true
  | _ => false

/-- External events driving the live controller: user clicks, network
responses resuming `start()`, the grace-delay timer, interval ticks
(bundled with the response of the query that tick issued), and the
response of the immediate `getJob` that `beginPolling` issues. -/
inductive LiveEv
  | startClick
  | createResp (ok : Bool) (jobId : String)
  | uploadResp (ok : Bool) (httpStatus : Nat) (body : String)
  | graceFired
  | startResp (code : Nat)
  | pollTickEv (resp : PollOutcome)
  | initialPollResp (resp : PollOutcome)
  | cancelClick
  deriving DecidableEq, Repr

/-- Requests the controller dispatches / timers it schedules, observable
at the boundary. -/
inductive Obs
  | createReq
  | uploadReq
  | delay (ms : Nat)
  | startReq
  | pollQuery
  deriving DecidableEq, Repr

/-- The grace delay between upload completion and the start call:
`await new Promise(r => setTimeout(r, 800))` (line 652). -/
def graceMs : Nat := 800

/-- The fixed polling period: `setInterval(..., 2500)` (line 677). -/
def pollIntervalMs : Nat := 2500

/-- State effect of `getJob` (lines 614-625): a 404 returns `null` before
touching any state; any other non-ok response throws before touching any
state; a success body sets `status` verbatim and sets `resultUrl` only
when `result_url` is truthy. -/
def getJobApply (resp : PollOutcome) (s : LiveState) : LiveState :=
  match resp with
  | PollOutcome.failure => s
  | PollOutcome.notFound => s
  | PollOutcome.success d =>
    let s1 := { s with status := some d.status }
    if truthy d.result_url then { s1 with resultUrl := d.result_url } else s1

/-- Return value of `getJob`: `.error` for a thrown status-check failure,
`.ok none` for the 404 `null`, `.ok (some d)` for a parsed body. -/
def getJobRet : PollOutcome → Except Unit (Option JobData)
  | PollOutcome.failure => Except.error ()
  | PollOutcome.notFound => Except.ok none
  | PollOutcome.success d => Except.ok (some d)

/-- One step of the live controller. Each event is handled exactly as the
corresponding source code path:
* `startClick` — `start()` lines 627-646: reset error and resultUrl,
  guard on a selected file, then dispatch `POST /jobs`;
* `createResp` — resume at line 638: on ok record `job_id`, set PENDING
  and dispatch the PUT upload, else the catch block (error message,
  busy false, FAILED);
* `uploadResp` — resume at line 647: on ok schedule the 800 ms grace
  delay, else the catch block with `Upload failed (status) body`;
* `graceFired` — resume at line 653: dispatch `POST /jobs/{id}/start`;
* `startResp` — line 654: `202` sets RUNNING and runs `beginPolling`
  (clear prior interval, dispatch an immediate status query, create the
  interval); any other code is the catch block;
* `pollTickEv` — the interval callback (lines 668-677): dispatch a query;
  apply `getJob`; a throw is swallowed by `catch {}`; a `null` (404)
  clears the interval and busy; a body stops iff `result_url` is truthy
  or status is `FAILED`;
* `initialPollResp` — response of `beginPolling`'s immediate
  `getJob(id).catch(() => {})` (line 667): only `getJob`'s state effect,
  its return value discarded;
* `cancelClick` — `cancelPolling()` (line 680):
  `clearInterval(pollRef.current); setBusy(false)` and nothing else. -/
def liveStep (s : LiveState) : LiveEv → LiveState × List Obs
  | LiveEv.startClick =>
    if inFlight s.phase then (s, [])
    else
      let s0 := { s with error := none, resultUrl := none }
      match s.file with
      | none => ({ s0 with error := some "Please select a .html or .xml file." }, [])
      | some _ => ({ s0 with busy := true, phase := Phase.awaitCreate }, [Obs.createReq])
  | LiveEv.createResp ok jid =>
    if s.phase = Phase.awaitCreate then
      if ok then
        ({ s with jobId := some jid, status := some "PENDING",
                  phase := Phase.awaitUpload }, [Obs.uploadReq])
      else
        ({ s with error := some "Failed to create job", busy := false,
                  status := some "FAILED", phase := Phase.idle }, [])
    else (s, [])
  | LiveEv.uploadResp ok code body =>
    if s.phase = Phase.awaitUpload then
      if ok then
        ({ s with phase := Phase.awaitGrace }, [Obs.delay graceMs])
      else
        ({ s with error := some ("Upload failed (" ++ toString code ++ ") " ++ body),
                  busy := false, status := some "FAILED", phase := Phase.idle }, [])
    else (s, [])
  | LiveEv.graceFired =>
    if s.phase = Phase.awaitGrace then
      ({ s with phase := Phase.awaitStart }, [Obs.startReq])
    else (s, [])
  | LiveEv.startResp code =>
    if s.phase = Phase.awaitStart then
      if code = 202 then
        ({ s with status := some "RUNNING", phase := Phase.polling,
                  intervalActive := true }, [Obs.pollQuery])
      else
        ({ s with error := some "Failed to start job", busy := false,
                  status := some "FAILED", phase := Phase.idle }, [])
    else (s, [])
  | LiveEv.pollTickEv resp =>
    if s.intervalActive then
      let s1 := getJobApply resp s
      match getJobRet resp with
      | Except.error _ => (s1, [Obs.pollQuery])
      | Except.ok none =>
        ({ s1 with intervalActive := false, busy := false }, [Obs.pollQuery])
      | Except.ok (some d) =>
        if truthy d.result_url || d.status == "FAILED" then
          ({ s1 with intervalActive := false, busy := false }, [Obs.pollQuery])
        else (s1, [Obs.pollQuery])
    else (s, [])
  | LiveEv.initialPollResp resp => (getJobApply resp s, [])
  | LiveEv.cancelClick => ({ s with intervalActive := false, busy := false }, [])

/-- Run the live controller over a list of events, collecting the
dispatched observables. -/
def liveRun : LiveState → List LiveEv → LiveState × List Obs
  | s, [] => (s, [])
  | s, e :: evs =>
    let p1 := liveStep s e
    let p2 := liveRun p1.1 evs
    (p2.1, p1.2 ++ p2.2)

/-! ## `pick` (App.jsx lines 284-292 / 607-610, identical in both parts) -/

/-- `pick(f)`: reject with the fixed message and clear the selected file,
or clear the error and select the file. Touches no other state. -/
def pick (f : Option String) (s : LiveState) : LiveState :=
  if isAllowed f then { s with error := none, file := f }
  else { s with error := some "Only .html or .xml files are accepted.",
                file := none }

/-! ## Simulated driver (first half of App.jsx, `start()` lines 311-364)

`start()` schedules: a 900 ms timeout that sets RUNNING; a 120 ms interval
that advances `progress`; a 9000 ms timeout that clears the interval, sets
`progress = 100`, synthesizes the mock payload, creates the blob result
URL, sets COMPLETED, clears busy, shows confetti and schedules a confetti
timeout. `cancelPolling()` (line 366-369) clears every timer and interval
and resets busy. -/

/-- `const totalMs = 9000` (line 328). -/
def simTotalMs : Nat := 9000

/-- `const tickMs = 120` (line 329). -/
def simTickMs : Nat := 120

/-- The 900 ms delay of the PENDING→RUNNING timeout (line 326). -/
def simRunningDelayMs : Nat := 900

/-- `const ticks = Math.floor((totalMs - 900) / tickMs)` (line 330) = 67.
JS `Math.floor` on this nonnegative quotient is Nat division. -/
def simTicks : Nat := (simTotalMs - simRunningDelayMs) / simTickMs

/-- Progress after the k-th interval fire:
`Math.min(96, Math.round((k / ticks) * 96))` (line 334). For the
nonnegative rational `k*96/67`, JS `Math.round x = ⌊x + 1/2⌋`, i.e.
`(2*(k*96) + ticks) / (2*ticks)` in Nat division (the quotient is never
exactly halfway between integers, so double rounding cannot disturb it). -/
def simProgress (k : Nat) : Nat :=
  min 96 ((2 * (k * 96) + simTicks) / (2 * simTicks))

/-- The mock result synthesized at completion (lines 341-346). -/
def mockPayload (fileName risk : String) : ResultPayload :=
  { summary := "Document parsed successfully. Portfolio screened for legislative risk; sector tilts and top holdings updated.",
    stocks := ["AAPL", "MSFT", "AMZN"],
    comment := "Processed " ++ fileName ++ " under " ++ risk ++
      " profile. Use “View After Analysis” to see the recommended positioning and rationale." }

/-- The object URL `URL.createObjectURL(blob)` (line 350). The browser
returns an opaque, non-empty `blob:`-scheme locator; it is modelled as a
fixed non-empty string since only its presence matters to the claims. -/
def blobUrl : String := "blob:result"

/-- Simulated-driver state: the `useState` cells `start()` touches plus
one pending flag per scheduled timer/interval (`timersRef` /
`intervalsRef` entries). `fileName` and `risk` are the values captured by
the `start()` closure. -/
structure SimState where
  status : Option String
  progress : Nat
  k : Nat
  intervalActive : Bool
  completePending : Bool
  runningPending : Bool
  confettiPending : Bool
  busy : Bool
  resultUrl : Option String
  resultData : Option ResultPayload
  showConfetti : Bool
  fileName : String
  risk : String
  deriving DecidableEq, Repr

/-- State right after `start()` ran synchronously (lines 311-358): state
reset, busy set, status PENDING, all three timers/intervals scheduled. -/
def simStart (fileName risk : String) : SimState :=
  { status := some "PENDING", progress := 0, k := 0,
    intervalActive := true, completePending := true, runningPending := true,
    confettiPending := false, busy := true, resultUrl := none,
    resultData := none, showConfetti := false,
    fileName := fileName, risk := risk }

/-- Timer events of the simulated driver, plus the user's cancel click. -/
inductive SimEv
  | toRunningFired
  | tick
  | completeFired
  | confettiFired
  | cancelClick
  deriving DecidableEq, Repr

/-- One step of the simulated driver. A fired timer whose pending flag was
already cleared (by `clearTimeout`/`clearInterval`) is a no-op. Handlers:
* `toRunningFired` — `setStatus('RUNNING')` (line 326);
* `tick` — the interval callback (lines 332-336): `k += 1` and
  `setProgress(Math.min(96, Math.round((k / ticks) * 96)))`;
* `completeFired` — the `toComplete` callback (lines 338-357): clear the
  interval, set the mock payload, `progress = 100`, the blob result URL,
  COMPLETED, busy false, confetti on and its timer scheduled;
* `confettiFired` — `setShowConfetti(false)` (line 355);
* `cancelClick` — `cancelPolling()` (lines 366-369): `clearTimers()` and
  `setBusy(false)`. -/
def simStep (s : SimState) : SimEv → SimState
  | SimEv.toRunningFired =>
    if s.runningPending then
      { s with runningPending := false, status := some "RUNNING" }
    else s
  | SimEv.tick =>
    if s.intervalActive then
      { s with k := s.k + 1, progress := simProgress (s.k + 1) }
    else s
  | SimEv.completeFired =>
    if s.completePending then
      { s with intervalActive := false, completePending := false,
               progress := 100,
               resultData := some (mockPayload s.fileName s.risk),
               resultUrl := some blobUrl, status := some "COMPLETED",
               busy := false, showConfetti := true, confettiPending := true }
    else s
  | SimEv.confettiFired =>
    if s.confettiPending then
      { s with confettiPending := false, showConfetti := false }
    else s
  | SimEv.cancelClick =>
    { s with intervalActive := false, completePending := false,
             runningPending := false, confettiPending := false,
             busy := false }

/-- Run the simulated driver over a list of events. -/
def simRun (s : SimState) (evs : List SimEv) : SimState :=
  evs.foldl simStep s

/-- The event trace is consistent with the timer schedule: the 900 ms
PENDING→RUNNING timeout cannot fire after the 9000 ms completion timeout
has fired. (Every trace the browser event loop can produce satisfies
this.) -/
def okTrace : List SimEv → Bool
  | [] => true
  | SimEv.completeFired :: rest =>
    rest.all (fun e => e != SimEv.toRunningFired) && okTrace rest
  | _ :: rest => okTrace rest

/-! ## Job-id generator (simulated driver, line 324)

`` const jid = `JOB-${Date.now().toString(36)}-${Math.random().toString(36).slice(2, 8)}` ``.
`Date.now()` is a nonnegative integer below 2^53 (exact in a double);
`n.toString(36)` is its base-36 representation with digits `0-9a-z`.
`Math.random().toString(36)` prints `"0."` followed by the base-36
fractional digits of the draw (trailing zeros omitted); `.slice(2, 8)`
keeps the first six of them. The draw is modelled by that digit list. -/

/-- Base-36 digit characters: `0-9` then `a-z`. -/
def base36Digit (d : Nat) : Char :=
  if d < 10 then Char.ofNat (48 + d) else Char.ofNat (87 + d)

/-- Fuel-driven base-36 digit accumulator (most significant first); the
fuel is an upper bound on the recursion depth, never reached with the
`n + 1` budget `digitsBase36` supplies. -/
def toBase36Core : Nat → Nat → List Char → List Char
  | 0, _, acc => acc
  | fuel + 1, n, acc =>
    if n / 36 = 0 then base36Digit (n % 36) :: acc
    else toBase36Core fuel (n / 36) (base36Digit (n % 36) :: acc)

/-- Digit list of `n.toString(36)`. -/
def digitsBase36 (n : Nat) : List Char := toBase36Core (n + 1) n []

/-- `n.toString(36)`. -/
def toBase36 (n : Nat) : String := String.mk (digitsBase36 n)

/-- `Math.random().toString(36).slice(2, 8)`: the first six fractional
base-36 digits of the draw. -/
def randSlice (frac : List Nat) : String :=
  String.mk ((frac.take 6).map base36Digit)

/-- The generated job id as a function of the clock reading and the
random draw. -/
def jobIdGen (now : Nat) (frac : List Nat) : String :=
  "JOB-" ++ toBase36 now ++ "-" ++ randSlice frac

/-- Invariant of claim C1 on the live app state: COMPLETED status is
accompanied by a truthy (present, non-empty) result location. -/
def completedImpliesResult (s : LiveState) : Prop :=
  s.status = some "COMPLETED" → truthy s.resultUrl = true

/-- What one successful/not-found poll tick does, per claim C4 as the code
actually behaves: status copied verbatim, resultUrl updated only when the
response's `result_url` is truthy, and the interval is cleared and busy
reset exactly when the response is a 404, carries a truthy `result_url`,
or reports status `FAILED`. -/
def pollTickSpec (s : LiveState) (d : JobData) : Prop :=
  (liveStep s (LiveEv.pollTickEv (PollOutcome.success d))).1.status = some d.status ∧
  (truthy d.result_url = true →
    (liveStep s (LiveEv.pollTickEv (PollOutcome.success d))).1.resultUrl = d.result_url) ∧
  (truthy d.result_url = false →
    (liveStep s (LiveEv.pollTickEv (PollOutcome.success d))).1.resultUrl = s.resultUrl) ∧
  ((liveStep s (LiveEv.pollTickEv (PollOutcome.success d))).1.intervalActive = false ↔
    (truthy d.result_url = true ∨ d.status = "FAILED")) ∧
  ((truthy d.result_url = true ∨ d.status = "FAILED") →
    (liveStep s (LiveEv.pollTickEv (PollOutcome.success d))).1.busy = false) ∧
  ((liveStep s (LiveEv.pollTickEv PollOutcome.notFound)).1.intervalActive = false ∧
   (liveStep s (LiveEv.pollTickEv PollOutcome.notFound)).1.busy = false)

/-- Invariant of the simulated run: the progress cell holds the interval
formula at the current tick count (hence is capped at 96), or the
completion timer has fired and all completion effects are in place. -/
def SimInv (s : SimState) : Prop :=
  s.progress = simProgress s.k ∨
    (s.progress = 100 ∧ s.status = some "COMPLETED" ∧
     s.resultData = some (mockPayload s.fileName s.risk) ∧
     s.resultUrl = some blobUrl ∧ s.intervalActive = false ∧
     s.completePending = false)

/-- Claim C9's property of appending one more event `e` to the trace
`evs` of a simulated submission of file `f` under risk `r`: progress is
non-decreasing at every step, capped at 96 while the interval is active,
and equals 100 only once the completion timer has fired — the step that
also synthesizes the payload, sets the result location, COMPLETED, and
clears the interval. -/
def simProgressSpec (f r : String) (evs : List SimEv) (e : SimEv) : Prop :=
  (simRun (simStart f r) evs).progress ≤
    (simRun (simStart f r) (evs ++ [e])).progress ∧
  ((simRun (simStart f r) (evs ++ [e])).intervalActive = true →
    (simRun (simStart f r) (evs ++ [e])).progress ≤ 96) ∧
  ((simRun (simStart f r) (evs ++ [e])).progress = 100 →
    (simRun (simStart f r) (evs ++ [e])).status = some "COMPLETED" ∧
    (simRun (simStart f r) (evs ++ [e])).resultData = some (mockPayload f r) ∧
    (simRun (simStart f r) (evs ++ [e])).resultUrl = some blobUrl ∧
    (simRun (simStart f r) (evs ++ [e])).intervalActive = false) ∧
  ((simRun (simStart f r) evs).progress ≠ 100 →
    (simRun (simStart f r) (evs ++ [e])).progress = 100 →
    e = SimEv.completeFired)

/-! ### Concrete states used by the witness checks -/

/-- A live controller mid-polling: the state `start()` leaves right after
a successful submission sequence (status RUNNING, busy, interval live). -/
def runningLive : LiveState :=
  { file := some "law.html", error := none, jobId := some "J-1",
    status := some "RUNNING", resultUrl := none, busy := true,
    phase := Phase.polling, intervalActive := true }

/-- A live controller suspended awaiting the upload response. -/
def uploadWait : LiveState :=
  { file := some "law.html", error := none, jobId := some "J-1",
    status := some "PENDING", resultUrl := none, busy := true,
    phase := Phase.awaitUpload, intervalActive := false }

/-- A live controller suspended awaiting the grace delay. -/
def graceWait : LiveState := { uploadWait with phase := Phase.awaitGrace }

/-- A live controller suspended awaiting the start response. -/
def startWait : LiveState := { uploadWait with phase := Phase.awaitStart }

/-! ## Theorems -/

/-! ### FileValidator (C3, C10) -/

/-- A literal pattern is a suffix of the case-folded name iff the name
splits as a prefix plus an extension whose case-folding is that pattern. -/
lemma isSuffixOf_lower_iff (p : List Char) (name : String) :
    List.isSuffixOf p (lowerData name) = true ↔
      ∃ pre ext, name.data = pre ++ ext ∧ ext.map Char.toLower = p := by
  rw [List.isSuffixOf_iff_suffix]
  constructor
  · rintro ⟨t, ht⟩
    have h2 : name.data.map Char.toLower = t ++ p := ht.symm
    rw [List.map_eq_append_iff] at h2
    obtain ⟨l₁, l₂, hsplit, _, hmap⟩ := h2
    exact ⟨l₁, l₂, hsplit, hmap⟩
  · rintro ⟨pre, ext, hsplit, hmap⟩
    refine ⟨pre.map Char.toLower, ?_⟩
    show pre.map Char.toLower ++ p = name.data.map Char.toLower
    rw [hsplit, List.map_append, hmap]

/-- C3: the validator accepts a candidate file iff its name,
case-insensitively, ends in `.htm`, `.html` or `.xml` (a missing file is
rejected); rejection produces exactly the fixed message and selects no
file, and `pick` touches nothing beyond the error and file cells (in
particular no Job is created: `jobId` and `status` are untouched);
acceptance clears the error and selects the file. -/
theorem validator_accepts_iff_extension :
    (∀ name : String, isAllowed (some name) = true ↔
      ∃ pre ext, name.data = pre ++ ext ∧
        (ext.map Char.toLower = ".htm".data ∨
         ext.map Char.toLower = ".html".data ∨
         ext.map Char.toLower = ".xml".data)) ∧
    isAllowed none = false ∧
    (∀ (f : Option String) (s : LiveState), isAllowed f = false →
      pick f s = { s with error := some "Only .html or .xml files are accepted.",
                          file := none }) ∧
    (∀ (f : Option String) (s : LiveState), isAllowed f = true →
      pick f s = { s with error := none, file := f }) := by
  refine ⟨?_, rfl, ?_, ?_⟩
  · intro name
    show matchesAllowedExt name = true ↔ _
    unfold matchesAllowedExt
    rw [Bool.or_eq_true, Bool.or_eq_true,
        isSuffixOf_lower_iff, isSuffixOf_lower_iff, isSuffixOf_lower_iff]
    constructor
    · rintro ((⟨pre, ext, h, hm⟩ | ⟨pre, ext, h, hm⟩) | ⟨pre, ext, h, hm⟩) <;>
        exact ⟨pre, ext, h, by tauto⟩
    · rintro ⟨pre, ext, h, (hm | hm | hm)⟩
      · exact Or.inl (Or.inl ⟨pre, ext, h, hm⟩)
      · exact Or.inl (Or.inr ⟨pre, ext, h, hm⟩)
      · exact Or.inr ⟨pre, ext, h, hm⟩
  · intro f s h
    simp [pick, h]
  · intro f s h
    simp [pick, h]

/-- C3 check: `law.HTML` is accepted (with the explicit decomposition) and
`brief.pdf` is rejected with the fixed message, no file selected and the
job cells untouched. -/
theorem validator_accepts_iff_extension_check :
    (∃ pre ext, "law.HTML".data = pre ++ ext ∧
        (ext.map Char.toLower = ".htm".data ∨
         ext.map Char.toLower = ".html".data ∨
         ext.map Char.toLower = ".xml".data)) ∧
    isAllowed (some "brief.pdf") = false ∧
    pick (some "brief.pdf") (liveInit "old.html") =
      { liveInit "old.html" with
          error := some "Only .html or .xml files are accepted.",
          file := none } :=
  ⟨(validator_accepts_iff_extension.1 "law.HTML").1 (by decide),
   by decide,
   validator_accepts_iff_extension.2.2.1 (some "brief.pdf") (liveInit "old.html")
     (by decide)⟩

/-- C10: a pick that fails validation — including a pick with no file at
all — resets the selected file to `none` in addition to setting the fixed
error message, so a previously accepted file never survives a rejected
pick. -/
theorem rejected_pick_clears_selection (f : Option String) (s : LiveState)
    (h : isAllowed f = false) :
    (pick f s).file = none ∧
    (pick f s).error = some "Only .html or .xml files are accepted." ∧
    (pick none s).file = none := by
  refine ⟨?_, ?_, ?_⟩
  · simp [pick, h]
  · simp [pick, h]
  · simp [pick, isAllowed]

/-- C10 check: picking `brief.pdf` while `old.html` is selected clears the
selection and sets the message. -/
theorem rejected_pick_clears_selection_check :
    isAllowed (some "brief.pdf") = false ∧
    ((pick (some "brief.pdf") (liveInit "old.html")).file = none ∧
     (pick (some "brief.pdf") (liveInit "old.html")).error =
       some "Only .html or .xml files are accepted." ∧
     (pick none (liveInit "old.html")).file = none) :=
  ⟨by decide,
   rejected_pick_clears_selection (some "brief.pdf") (liveInit "old.html") (by decide)⟩

/-! ### StatusPoller error handling (C5, C6) -/

/-- C5: a poll tick whose status query fails with a network/server error
is silently skipped — the query is dispatched, but the controller state
(interval handle included) is left entirely unchanged, so the next tick
fires on the same fixed interval; no backoff exists (the period is the
constant 2500 ms baked into `setInterval`), and since the tick's `catch`
swallows the throw, the step is total and no error reaches the caller. -/
theorem poll_failure_tick_is_noop (s : LiveState) (h : s.intervalActive = true) :
    liveStep s (LiveEv.pollTickEv PollOutcome.failure) = (s, [Obs.pollQuery]) ∧
    pollIntervalMs = 2500 := by
  refine ⟨?_, rfl⟩
  simp [liveStep, h, getJobApply, getJobRet]

/-- C5 check on a concrete polling state. -/
theorem poll_failure_tick_is_noop_check :
    runningLive.intervalActive = true ∧
    (liveStep runningLive (LiveEv.pollTickEv PollOutcome.failure) =
       (runningLive, [Obs.pollQuery]) ∧
     pollIntervalMs = 2500) :=
  ⟨rfl, poll_failure_tick_is_noop runningLive rfl⟩

/-- C6: a poll tick whose query returns 404 halts polling (interval
cleared) and clears the busy flag without any caller-visible error, and
the 404 itself mutates nothing: status, resultUrl and the error cell all
keep their previous values — status stays frozen at the last value
received before the 404. -/
theorem poll_notfound_halts_silently (s : LiveState) (h : s.intervalActive = true) :
    (liveStep s (LiveEv.pollTickEv PollOutcome.notFound)).1 =
      { s with intervalActive := false, busy := false } ∧
    (liveStep s (LiveEv.pollTickEv PollOutcome.notFound)).1.status = s.status ∧
    (liveStep s (LiveEv.pollTickEv PollOutcome.notFound)).1.resultUrl = s.resultUrl ∧
    (liveStep s (LiveEv.pollTickEv PollOutcome.notFound)).1.error = s.error := by
  refine ⟨?_, ?_, ?_, ?_⟩ <;> simp [liveStep, h, getJobApply, getJobRet]

/-- C6 check on a concrete polling state. -/
theorem poll_notfound_halts_silently_check :
    runningLive.intervalActive = true ∧
    ((liveStep runningLive (LiveEv.pollTickEv PollOutcome.notFound)).1 =
       { runningLive with intervalActive := false, busy := false } ∧
     (liveStep runningLive (LiveEv.pollTickEv PollOutcome.notFound)).1.status =
       runningLive.status ∧
     (liveStep runningLive (LiveEv.pollTickEv PollOutcome.notFound)).1.resultUrl =
       runningLive.resultUrl ∧
     (liveStep runningLive (LiveEv.pollTickEv PollOutcome.notFound)).1.error =
       runningLive.error) :=
  ⟨rfl, poll_notfound_halts_silently runningLive rfl⟩

/-! ### COMPLETED / resultLocation pairing (C1) -/

/-- Field-level description of a successful poll tick while the interval
is live (shared by the C1 and C4 developments). -/
lemma pollTick_success_fields (s : LiveState) (d : JobData)
    (h : s.intervalActive = true) :
    (liveStep s (LiveEv.pollTickEv (PollOutcome.success d))).1.status = some d.status ∧
    (liveStep s (LiveEv.pollTickEv (PollOutcome.success d))).1.resultUrl =
      (if truthy d.result_url then d.result_url else s.resultUrl) ∧
    (liveStep s (LiveEv.pollTickEv (PollOutcome.success d))).1.intervalActive =
      !(truthy d.result_url || d.status == "FAILED") ∧
    (liveStep s (LiveEv.pollTickEv (PollOutcome.success d))).1.busy =
      (if truthy d.result_url || d.status == "FAILED" then false else s.busy) := by
  by_cases hstop : (truthy d.result_url || d.status == "FAILED") = true <;>
    by_cases ht : truthy d.result_url = true <;>
      simp_all [liveStep, getJobApply, getJobRet]

/-- C1 counterexample: in the live driver, from the reachable state right
after a started submission, a poll tick whose response reports status
`COMPLETED` without a `result_url` sets the job status to COMPLETED while
`resultUrl` is still empty — the code path exists, the client does not
enforce the pairing. -/
theorem completed_without_result_location_possible :
    (liveStep
        (liveRun (liveInit "law.html")
          [LiveEv.startClick, LiveEv.createResp true "J-1",
           LiveEv.uploadResp true 200 "", LiveEv.graceFired,
           LiveEv.startResp 202]).1
        (LiveEv.pollTickEv (PollOutcome.success ⟨"COMPLETED", none⟩))).1.status =
      some "COMPLETED" ∧
    (liveStep
        (liveRun (liveInit "law.html")
          [LiveEv.startClick, LiveEv.createResp true "J-1",
           LiveEv.uploadResp true 200 "", LiveEv.graceFired,
           LiveEv.startResp 202]).1
        (LiveEv.pollTickEv (PollOutcome.success ⟨"COMPLETED", none⟩))).1.resultUrl =
      none := by decide

/-- C1 amended: the simulated driver's completion timer does set the
result location (the non-empty blob URL) and COMPLETED together with the
synthesized payload; in the live driver a poll tick preserves
"COMPLETED implies non-empty resultLocation" exactly under the assumption
that every successful response reporting COMPLETED carries a truthy
`result_url` — the pairing is the server's to maintain, not enforced by
the client. -/
theorem completed_pairs_with_result_location :
    (∀ sim : SimState, sim.completePending = true →
      (simStep sim SimEv.completeFired).status = some "COMPLETED" ∧
      (simStep sim SimEv.completeFired).resultUrl = some blobUrl ∧
      (simStep sim SimEv.completeFired).resultData =
        some (mockPayload sim.fileName sim.risk) ∧
      blobUrl ≠ "") ∧
    (∀ (s : LiveState) (resp : PollOutcome),
      (∀ d : JobData, resp = PollOutcome.success d →
        d.status = "COMPLETED" → truthy d.result_url = true) →
      completedImpliesResult s →
      completedImpliesResult (liveStep s (LiveEv.pollTickEv resp)).1) := by
  constructor
  · intro sim h
    refine ⟨?_, ?_, ?_, by decide⟩ <;> simp [simStep, h]
  · intro s resp hresp hinv
    by_cases hI : s.intervalActive = true
    · cases resp with
      | failure =>
        simpa [liveStep, hI, getJobApply, getJobRet] using hinv
      | notFound =>
        intro hc
        simp only [liveStep, hI, getJobApply, getJobRet, if_true] at hc ⊢
        exact hinv hc
      | success d =>
        intro hc
        obtain ⟨hst, hru, -, -⟩ := pollTick_success_fields s d hI
        rw [hst] at hc
        have hds : d.status = "COMPLETED" := by injection hc
        have ht := hresp d rfl hds
        rw [hru, if_pos ht]
        exact ht
    · simp only [Bool.not_eq_true] at hI
      simpa [liveStep, hI] using hinv

/-- C1 amended check: the simulated completion step at the state `start()`
creates, and a live poll tick carrying COMPLETED with a non-empty
`result_url` preserving the pairing on the running state. -/
theorem completed_pairs_with_result_location_check :
    ((simStart "law.html" "MEDIUM").completePending = true ∧
      (simStep (simStart "law.html" "MEDIUM") SimEv.completeFired).status =
        some "COMPLETED" ∧
      (simStep (simStart "law.html" "MEDIUM") SimEv.completeFired).resultUrl =
        some blobUrl ∧
      (simStep (simStart "law.html" "MEDIUM") SimEv.completeFired).resultData =
        some (mockPayload "law.html" "MEDIUM") ∧
      blobUrl ≠ "") ∧
    (completedImpliesResult runningLive ∧
      completedImpliesResult
        (liveStep runningLive
          (LiveEv.pollTickEv
            (PollOutcome.success ⟨"COMPLETED", some "https://r/out.json"⟩))).1) :=
  ⟨⟨rfl,
    (completed_pairs_with_result_location.1 (simStart "law.html" "MEDIUM") rfl).1,
    (completed_pairs_with_result_location.1 (simStart "law.html" "MEDIUM") rfl).2.1,
    (completed_pairs_with_result_location.1 (simStart "law.html" "MEDIUM") rfl).2.2.1,
    (completed_pairs_with_result_location.1 (simStart "law.html" "MEDIUM") rfl).2.2.2⟩,
   ⟨by intro hc; simp [runningLive] at hc,
    completed_pairs_with_result_location.2 runningLive
      (PollOutcome.success ⟨"COMPLETED", some "https://r/out.json"⟩)
      (by intro d hd hc; cases hd; decide)
      (by intro hc; simp [runningLive] at hc)⟩⟩

/-! ### Cancellation (C2) -/

/-- C2 counterexample: `cancelPolling()` invoked while the submission
sequence is still in flight (here: during the grace delay between upload
and start) does not prevent further poll queries — the suspended `start()`
continuation is untouched, so when the delay fires and the start call is
accepted, `beginPolling` dispatches a poll query after the cancellation. -/
theorem poll_dispatch_after_cancel_midflight :
    Obs.pollQuery ∈
      (liveRun
        (liveRun (liveInit "law.html")
          [LiveEv.startClick, LiveEv.createResp true "J-1",
           LiveEv.uploadResp true 200 "", LiveEv.cancelClick]).1
        [LiveEv.graceFired, LiveEv.startResp 202]).2 := by decide

/-- A quiescent controller (no live interval, no submission sequence in
flight) stays quiescent and dispatches no poll query on any event other
than a new start click. -/
lemma quiescent_step (s : LiveState) (e : LiveEv)
    (hI : s.intervalActive = false) (hP : inFlight s.phase = false)
    (hne : e ≠ LiveEv.startClick) :
    Obs.pollQuery ∉ (liveStep s e).2 ∧
    (liveStep s e).1.intervalActive = false ∧
    inFlight (liveStep s e).1.phase = false := by
  cases e with
  | startClick => exact absurd rfl hne
  | createResp ok jid =>
    have hph : ¬s.phase = Phase.awaitCreate := by
      intro h; rw [h] at hP; simp [inFlight] at hP
    simp [liveStep, hph, hI, hP]
  | uploadResp ok code body =>
    have hph : ¬s.phase = Phase.awaitUpload := by
      intro h; rw [h] at hP; simp [inFlight] at hP
    simp [liveStep, hph, hI, hP]
  | graceFired =>
    have hph : ¬s.phase = Phase.awaitGrace := by
      intro h; rw [h] at hP; simp [inFlight] at hP
    simp [liveStep, hph, hI, hP]
  | startResp code =>
    have hph : ¬s.phase = Phase.awaitStart := by
      intro h; rw [h] at hP; simp [inFlight] at hP
    simp [liveStep, hph, hI, hP]
  | pollTickEv resp => simp [liveStep, hI, hP]
  | initialPollResp resp =>
    cases resp with
    | failure => simp [liveStep, getJobApply, hI, hP]
    | notFound => simp [liveStep, getJobApply, hI, hP]
    | success d =>
      simp only [liveStep, getJobApply]
      split <;> simp [hI, hP]
  | cancelClick => simp [liveStep, hP]

/-- Iterated form of `quiescent_step`: no poll query over a whole event
list free of start clicks. -/
lemma no_poll_of_quiescent (evs : List LiveEv) :
    ∀ s : LiveState, s.intervalActive = false → inFlight s.phase = false →
      (∀ e ∈ evs, e ≠ LiveEv.startClick) →
      Obs.pollQuery ∉ (liveRun s evs).2 := by
  induction evs with
  | nil => intro s _ _ _ h; simp [liveRun] at h
  | cons e rest ih =>
    intro s hI hP hns hmem
    obtain ⟨h1, h2, h3⟩ :=
      quiescent_step s e hI hP (hns e (List.mem_cons_self e rest))
    simp only [liveRun, List.mem_append] at hmem
    rcases hmem with hmem | hmem
    · exact h1 hmem
    · exact ih (liveStep s e).1 h2 h3
        (fun e' he' => hns e' (List.mem_cons_of_mem e he')) hmem

/-- C2 amended: `cancelPolling()` clears the interval and resets the busy
flag, and afterwards no further poll query is dispatched — provided the
submission sequence was not still in flight at cancellation time and no
new submission is started. (If cancellation happens mid-sequence, the
suspended `start()` continuation proceeds and `beginPolling` dispatches
queries, as the counterexample shows.) -/
theorem cancel_quiescent_no_polls (s : LiveState) (evs : List LiveEv)
    (hP : inFlight s.phase = false)
    (hns : ∀ e ∈ evs, e ≠ LiveEv.startClick) :
    (liveStep s LiveEv.cancelClick).1.busy = false ∧
    (liveStep s LiveEv.cancelClick).1.intervalActive = false ∧
    Obs.pollQuery ∉ (liveRun (liveStep s LiveEv.cancelClick).1 evs).2 := by
  refine ⟨by simp [liveStep], by simp [liveStep], ?_⟩
  apply no_poll_of_quiescent evs _ (by simp [liveStep]) _ hns
  show inFlight (liveStep s LiveEv.cancelClick).1.phase = false
  simpa [liveStep] using hP

/-- C2 amended check: cancelling a polling controller, then feeding it two
interval ticks, dispatches no poll query. -/
theorem cancel_quiescent_no_polls_check :
    inFlight runningLive.phase = false ∧
    (∀ e ∈ [LiveEv.pollTickEv PollOutcome.failure,
            LiveEv.pollTickEv (PollOutcome.success ⟨"RUNNING", none⟩)],
       e ≠ LiveEv.startClick) ∧
    ((liveStep runningLive LiveEv.cancelClick).1.busy = false ∧
     (liveStep runningLive LiveEv.cancelClick).1.intervalActive = false ∧
     Obs.pollQuery ∉
       (liveRun (liveStep runningLive LiveEv.cancelClick).1
         [LiveEv.pollTickEv PollOutcome.failure,
          LiveEv.pollTickEv (PollOutcome.success ⟨"RUNNING", none⟩)]).2) :=
  ⟨rfl, by decide,
   cancel_quiescent_no_polls runningLive
     [LiveEv.pollTickEv PollOutcome.failure,
      LiveEv.pollTickEv (PollOutcome.success ⟨"RUNNING", none⟩)]
     rfl (by decide)⟩

/-! ### Poll-tick update and stop condition (C4) -/

/-- C4 counterexample: a successful poll tick returning status `COMPLETED`
with no `result_url` — a terminal status by the claim — updates the status
but neither stops the interval nor clears the busy flag: the tick's stop
condition is `data.result_url || data.status === 'FAILED'`, not
terminality. -/
theorem completed_response_without_url_keeps_polling :
    (liveStep
        (liveRun (liveInit "law.html")
          [LiveEv.startClick, LiveEv.createResp true "J-1",
           LiveEv.uploadResp true 200 "", LiveEv.graceFired,
           LiveEv.startResp 202]).1
        (LiveEv.pollTickEv (PollOutcome.success ⟨"COMPLETED", none⟩))).1.status =
      some "COMPLETED" ∧
    (liveStep
        (liveRun (liveInit "law.html")
          [LiveEv.startClick, LiveEv.createResp true "J-1",
           LiveEv.uploadResp true 200 "", LiveEv.graceFired,
           LiveEv.startResp 202]).1
        (LiveEv.pollTickEv (PollOutcome.success ⟨"COMPLETED", none⟩))).1.intervalActive =
      true ∧
    (liveStep
        (liveRun (liveInit "law.html")
          [LiveEv.startClick, LiveEv.createResp true "J-1",
           LiveEv.uploadResp true 200 "", LiveEv.graceFired,
           LiveEv.startResp 202]).1
        (LiveEv.pollTickEv (PollOutcome.success ⟨"COMPLETED", none⟩))).1.busy =
      true := by decide

/-- C4 amended: on a successful poll tick the status is updated verbatim
(and resultLocation when the response carries a truthy `result_url`), and
the interval is stopped and busy cleared exactly when the job is reported
not-found, the response carries a truthy `result_url`, or the returned
status is `FAILED`; a COMPLETED status without a `result_url` keeps
polling. -/
theorem poll_tick_updates_and_stop_condition (s : LiveState) (d : JobData)
    (h : s.intervalActive = true) : pollTickSpec s d := by
  by_cases ht : truthy d.result_url = true <;>
    by_cases hf : d.status = "FAILED" <;>
      refine ⟨?_, ?_, ?_, ?_, ?_, ?_, ?_⟩ <;>
        simp [liveStep, pollTickSpec, h, getJobApply, getJobRet, ht, hf]

/-- C4 amended check on a concrete polling state and a RUNNING response
without a result url: status updated, polling continues. -/
theorem poll_tick_updates_and_stop_condition_check :
    runningLive.intervalActive = true ∧
    pollTickSpec runningLive ⟨"RUNNING", none⟩ :=
  ⟨rfl, poll_tick_updates_and_stop_condition runningLive ⟨"RUNNING", none⟩ rfl⟩

/-! ### Job-id uniqueness (C8) -/

/-- The fuel argument of `toBase36Core` is irrelevant once it exceeds the
encoded number. -/
lemma toBase36Core_fuel :
    ∀ (f₁ f₂ n : Nat) (acc : List Char), n < f₁ → n < f₂ →
      toBase36Core f₁ n acc = toBase36Core f₂ n acc := by
  intro f₁
  induction f₁ with
  | zero => intro f₂ n acc h1 _; omega
  | succ k ih =>
    intro f₂ n acc h1 h2
    cases f₂ with
    | zero => omega
    | succ j =>
      simp only [toBase36Core]
      by_cases hq : n / 36 = 0
      · simp [hq]
      · simp only [hq, if_false]
        exact ih j (n / 36) _ (by omega) (by omega)

/-- The accumulator of `toBase36Core` is appended to the digits. -/
lemma toBase36Core_acc :
    ∀ (f n : Nat) (acc : List Char), n < f →
      toBase36Core f n acc = toBase36Core f n [] ++ acc := by
  intro f
  induction f with
  | zero => intro n acc h; omega
  | succ k ih =>
    intro n acc h
    simp only [toBase36Core]
    by_cases hq : n / 36 = 0
    · simp [hq]
    · simp only [hq, if_false]
      rw [ih (n / 36) (base36Digit (n % 36) :: acc) (by omega),
          ih (n / 36) [base36Digit (n % 36)] (by omega),
          List.append_assoc]
      rfl

/-- Positional unfolding of the digit list. -/
lemma digitsBase36_eq (n : Nat) :
    digitsBase36 n =
      if n / 36 = 0 then [base36Digit (n % 36)]
      else digitsBase36 (n / 36) ++ [base36Digit (n % 36)] := by
  show toBase36Core (n + 1) n [] = _
  simp only [toBase36Core]
  by_cases hq : n / 36 = 0
  · simp [hq]
  · simp only [hq, if_false]
    rw [toBase36Core_acc n (n / 36) [base36Digit (n % 36)] (by omega),
        toBase36Core_fuel n (n / 36 + 1) (n / 36) [] (by omega) (by omega)]
    rfl

/-- A base-36 digit list is never empty. -/
lemma digitsBase36_ne_nil (n : Nat) : digitsBase36 n ≠ [] := by
  rw [digitsBase36_eq]
  split <;> simp

/-- `base36Digit` is injective on the digit range. -/
lemma base36Digit_injOn : ∀ d e : Fin 36,
    base36Digit d.val = base36Digit e.val → d = e := by decide

/-- No base-36 digit prints as a dash. -/
lemma base36Digit_ne_dash_fin : ∀ d : Fin 36, base36Digit d.val ≠ '-' := by decide

/-- Unbundled form of `base36Digit_injOn`. -/
lemma base36Digit_inj {d e : Nat} (hd : d < 36) (he : e < 36)
    (h : base36Digit d = base36Digit e) : d = e := by
  have := base36Digit_injOn ⟨d, hd⟩ ⟨e, he⟩ h
  exact congrArg Fin.val this

/-- Unbundled form of `base36Digit_ne_dash_fin`. -/
lemma base36Digit_ne_dash {d : Nat} (hd : d < 36) : base36Digit d ≠ '-' :=
  base36Digit_ne_dash_fin ⟨d, hd⟩

/-- The dash separator never occurs inside the base-36 time component. -/
lemma dash_not_mem_digitsBase36 (n : Nat) : '-' ∉ digitsBase36 n := by
  induction n using Nat.strong_induction_on with
  | _ n ih =>
    rw [digitsBase36_eq]
    by_cases hq : n / 36 = 0
    · simp only [hq, if_true, List.mem_singleton]
      exact fun h => base36Digit_ne_dash (Nat.mod_lt n (by omega)) h.symm
    · simp only [hq, if_false, List.mem_append, List.mem_singleton]
      rintro (h | h)
      · exact ih (n / 36) (by omega) h
      · exact base36Digit_ne_dash (Nat.mod_lt n (by omega)) h.symm

/-- Cancelling a final singleton on both sides of an append equation. -/
lemma append_singleton_inj {α : Type} {l₁ l₂ : List α} {a b : α}
    (h : l₁ ++ [a] = l₂ ++ [b]) : l₁ = l₂ ∧ a = b := by
  have h' := congrArg List.reverse h
  simp only [List.reverse_append, List.reverse_singleton,
    List.singleton_append, List.cons.injEq] at h'
  exact ⟨List.reverse_injective h'.2, h'.1⟩

/-- The base-36 representation is injective. -/
lemma digitsBase36_inj : ∀ n m : Nat, digitsBase36 n = digitsBase36 m → n = m := by
  intro n
  induction n using Nat.strong_induction_on with
  | _ n ih =>
    intro m h
    rw [digitsBase36_eq, digitsBase36_eq m] at h
    by_cases hn : n / 36 = 0 <;> by_cases hm : m / 36 = 0
    · simp only [hn, hm, if_true, List.cons.injEq] at h
      have := base36Digit_inj (Nat.mod_lt n (by omega)) (Nat.mod_lt m (by omega)) h.1
      omega
    · simp only [hn, hm, if_true, if_false] at h
      have hlen := congrArg List.length h
      simp only [List.length_append, List.length_singleton] at hlen
      have hnil : digitsBase36 (m / 36) = [] :=
        List.length_eq_zero.mp (by omega)
      exact absurd hnil (digitsBase36_ne_nil _)
    · simp only [hn, hm, if_true, if_false] at h
      have hlen := congrArg List.length h
      simp only [List.length_append, List.length_singleton] at hlen
      have hnil : digitsBase36 (n / 36) = [] :=
        List.length_eq_zero.mp (by omega)
      exact absurd hnil (digitsBase36_ne_nil _)
    · simp only [hn, hm, if_false] at h
      obtain ⟨h1, h2⟩ := append_singleton_inj h
      have hq := ih (n / 36) (by omega) (m / 36) h1
      have hr := base36Digit_inj (Nat.mod_lt n (by omega)) (Nat.mod_lt m (by omega)) h2
      omega

/-- Unique parse around a dash: if neither left part contains a dash, the
parts coincide. -/
lemma eq_of_append_dash_append :
    ∀ (A : List Char) {B R₁ R₂ : List Char}, '-' ∉ A → '-' ∉ B →
      A ++ '-' :: R₁ = B ++ '-' :: R₂ → A = B ∧ R₁ = R₂ := by
  intro A
  induction A with
  | nil =>
    intro B R₁ R₂ _ hB h
    cases B with
    | nil =>
      injection h with _ h2
      exact ⟨rfl, h2⟩
    | cons b B' =>
      injection h with h1 _
      rw [← h1] at hB
      exact absurd (List.mem_cons_self '-' _) hB
  | cons a A' ihA =>
    intro B R₁ R₂ hA hB h
    cases B with
    | nil =>
      injection h with h1 _
      rw [h1] at hA
      exact absurd (List.mem_cons_self '-' _) hA
    | cons b B' =>
      injection h with h1 h2
      have hA' : '-' ∉ A' := fun hx => hA (List.mem_cons_of_mem a hx)
      have hB' : '-' ∉ B' := fun hx => hB (List.mem_cons_of_mem b hx)
      obtain ⟨hAB, hR⟩ := ihA hA' hB' h2
      exact ⟨by rw [h1, hAB], hR⟩

/-- C8 counterexample: two independent submissions in the same millisecond
whose random draws differ only from the seventh fractional base-36 digit
on receive the very same job id — the generator truncates the random part
to six digits, and nothing prevents equal clock readings. -/
theorem job_id_collision_possible :
    ([0, 0, 0, 0, 0, 0, 1] : List Nat) ≠ [0, 0, 0, 0, 0, 0, 2] ∧
    jobIdGen 99 [0, 0, 0, 0, 0, 0, 1] = jobIdGen 99 [0, 0, 0, 0, 0, 0, 2] := by
  exact ⟨by decide, by decide⟩

/-- C8 amended: two submissions receive distinct job ids whenever their
`Date.now()` readings differ — the base-36 time component parses uniquely
out of the id (no digit is a dash), so distinct clocks force distinct
ids. Ids can only collide when both the millisecond timestamp and the
six-digit random slice coincide. -/
theorem job_id_distinct_of_distinct_clock (t₁ t₂ : Nat) (f₁ f₂ : List Nat)
    (h : t₁ ≠ t₂) : jobIdGen t₁ f₁ ≠ jobIdGen t₂ f₂ := by
  intro heq
  have hd := congrArg String.data heq
  have hmk : ∀ l : List Char, (String.mk l).data = l := fun l => rfl
  simp only [jobIdGen, toBase36, String.data_append, hmk,
    List.append_assoc] at hd
  have hd2 := List.append_cancel_left hd
  rw [List.singleton_append, List.singleton_append] at hd2
  obtain ⟨hdig, -⟩ :=
    eq_of_append_dash_append (digitsBase36 t₁)
      (dash_not_mem_digitsBase36 t₁) (dash_not_mem_digitsBase36 t₂) hd2
  exact h (digitsBase36_inj t₁ t₂ hdig)

/-- C8 amended check: clock readings 0 and 1 give different ids even with
identical random draws. -/
theorem job_id_distinct_of_distinct_clock_check :
    (0 : Nat) ≠ 1 ∧ jobIdGen 0 [1, 2, 3] ≠ jobIdGen 1 [1, 2, 3] :=
  ⟨by decide, job_id_distinct_of_distinct_clock 0 1 [1, 2, 3] [1, 2, 3] (by decide)⟩

/-! ### StartTrigger and grace delay (C7) -/

/-- C7: after a successful upload the controller schedules exactly the
fixed 800 ms grace delay; the start request is dispatched only by that
delay firing; a start response with code 202 sets RUNNING and begins
polling, and any response code other than 202 is fatal — status FAILED,
busy cleared, the fixed start error surfaced. -/
theorem grace_delay_and_start_code_contract :
    (∀ (s : LiveState) (code : Nat) (body : String),
      s.phase = Phase.awaitUpload →
        liveStep s (LiveEv.uploadResp true code body) =
          ({ s with phase := Phase.awaitGrace }, [Obs.delay 800])) ∧
    (∀ (s : LiveState) (e : LiveEv), Obs.startReq ∈ (liveStep s e).2 →
        s.phase = Phase.awaitGrace ∧ e = LiveEv.graceFired) ∧
    (∀ s : LiveState, s.phase = Phase.awaitStart →
        (liveStep s (LiveEv.startResp 202)).1.status = some "RUNNING" ∧
        (liveStep s (LiveEv.startResp 202)).1.phase = Phase.polling ∧
        (liveStep s (LiveEv.startResp 202)).1.intervalActive = true) ∧
    (∀ (s : LiveState) (code : Nat), s.phase = Phase.awaitStart → code ≠ 202 →
        (liveStep s (LiveEv.startResp code)).1.status = some "FAILED" ∧
        (liveStep s (LiveEv.startResp code)).1.busy = false ∧
        (liveStep s (LiveEv.startResp code)).1.error = some "Failed to start job") ∧
    graceMs = 800 := by
  refine ⟨?_, ?_, ?_, ?_, rfl⟩
  · intro s code body h
    simp [liveStep, h, graceMs]
  · intro s e h
    cases e <;> unfold liveStep at h <;> (try (repeat' split at h)) <;> simp_all
  · intro s h
    simp [liveStep, h]
  · intro s code h hne
    simp [liveStep, h, hne]

/-! ### Simulated progress (C9) -/

/-- The tick formula is capped at 96. -/
lemma simProgress_le_96 (k : Nat) : simProgress k ≤ 96 := min_le_left 96 _

/-- The tick formula is monotone in the tick count. -/
lemma simProgress_mono {j k : Nat} (h : j ≤ k) :
    simProgress j ≤ simProgress k := by
  have h1 : j * 96 ≤ k * 96 := Nat.mul_le_mul_right 96 h
  exact min_le_min (le_refl 96) (Nat.div_le_div_right (by omega))

/-- Simulated steps never change the captured file name or risk. -/
lemma simStep_meta (s : SimState) (e : SimEv) :
    (simStep s e).fileName = s.fileName ∧ (simStep s e).risk = s.risk := by
  cases e <;> simp only [simStep] <;> (try split) <;> simp

/-- Iterated form of `simStep_meta`. -/
lemma simRun_meta (evs : List SimEv) : ∀ s : SimState,
    (simRun s evs).fileName = s.fileName ∧ (simRun s evs).risk = s.risk := by
  induction evs with
  | nil => intro s; exact ⟨rfl, rfl⟩
  | cons e rest ih =>
    intro s
    have h1 := simStep_meta s e
    have h2 := ih (simStep s e)
    exact ⟨h2.1.trans h1.1, h2.2.trans h1.2⟩

/-- Progress never decreases across one simulated step. -/
lemma simStep_mono (s : SimState) (e : SimEv) (hInv : SimInv s) :
    s.progress ≤ (simStep s e).progress := by
  cases e with
  | toRunningFired => simp only [simStep]; split <;> exact le_refl _
  | tick =>
    simp only [simStep]
    split
    · rename_i hI
      rcases hInv with h | ⟨-, -, -, -, hIA, -⟩
      · show s.progress ≤ simProgress (s.k + 1)
        rw [h]
        exact simProgress_mono (Nat.le_succ _)
      · rw [hIA] at hI
        exact Bool.noConfusion hI
    · exact le_refl _
  | completeFired =>
    simp only [simStep]
    split
    · show s.progress ≤ 100
      rcases hInv with h | ⟨h, -⟩
      · rw [h]
        exact le_trans (simProgress_le_96 _) (by omega)
      · omega
    · exact le_refl _
  | confettiFired => simp only [simStep]; split <;> exact le_refl _
  | cancelClick => exact le_refl _

/-- Only the completion timer can raise progress to 100. -/
lemma simStep_sets_100 (s : SimState) (e : SimEv)
    (h0 : s.progress ≠ 100) (h1 : (simStep s e).progress = 100) :
    e = SimEv.completeFired := by
  cases e with
  | completeFired => rfl
  | toRunningFired =>
    simp only [simStep] at h1
    split at h1 <;> exact absurd h1 h0
  | tick =>
    simp only [simStep] at h1
    split at h1
    · have h2 : simProgress (s.k + 1) = 100 := h1
      have h3 := simProgress_le_96 (s.k + 1)
      omega
    · exact absurd h1 h0
  | confettiFired =>
    simp only [simStep] at h1
    split at h1 <;> exact absurd h1 h0
  | cancelClick => exact absurd h1 h0

/-- One simulated step preserves `SimInv`, as long as the RUNNING timeout
does not fire after completion (the schedule forbids it). -/
lemma simStep_inv (s : SimState) (e : SimEv) (hInv : SimInv s)
    (hrun : e = SimEv.toRunningFired → s.progress ≠ 100) :
    SimInv (simStep s e) := by
  cases e with
  | toRunningFired =>
    simp only [simStep]
    split
    · rcases hInv with h | h
      · exact Or.inl h
      · exact absurd h.1 (hrun rfl)
    · exact hInv
  | tick =>
    simp only [simStep]
    split
    · exact Or.inl rfl
    · exact hInv
  | completeFired =>
    simp only [simStep]
    split
    · exact Or.inr ⟨rfl, rfl, rfl, rfl, rfl, rfl⟩
    · exact hInv
  | confettiFired =>
    simp only [simStep]
    split
    · rcases hInv with h | h
      · exact Or.inl h
      · exact Or.inr h
    · exact hInv
  | cancelClick =>
    rcases hInv with h | h
    · exact Or.inl h
    · exact Or.inr ⟨h.1, h.2.1, h.2.2.1, h.2.2.2.1, rfl, rfl⟩

/-- Dropping the head of a schedule-consistent trace keeps it
consistent. -/
lemma okTrace_tail (e : SimEv) (rest : List SimEv)
    (h : okTrace (e :: rest) = true) : okTrace rest = true := by
  cases e with
  | completeFired =>
    have h' : (rest.all (fun ev => ev != SimEv.toRunningFired) &&
        okTrace rest) = true := h
    rw [Bool.and_eq_true] at h'
    exact h'.2
  | toRunningFired => exact h
  | tick => exact h
  | confettiFired => exact h
  | cancelClick => exact h

/-- After a completion event, a consistent trace holds no RUNNING
timeout. -/
lemma okTrace_completeFired_all (rest : List SimEv)
    (h : okTrace (SimEv.completeFired :: rest) = true) :
    rest.all (fun e => e != SimEv.toRunningFired) = true := by
  have h' : (rest.all (fun ev => ev != SimEv.toRunningFired) &&
      okTrace rest) = true := h
  rw [Bool.and_eq_true] at h'
  exact h'.1

/-- A prefix of a schedule-consistent trace is consistent. -/
lemma okTrace_append_left :
    ∀ l₁ l₂ : List SimEv, okTrace (l₁ ++ l₂) = true → okTrace l₁ = true := by
  intro l₁
  induction l₁ with
  | nil => intro l₂ _; rfl
  | cons e rest ih =>
    intro l₂ h
    cases e with
    | completeFired =>
      have h' : ((rest ++ l₂).all (fun ev => ev != SimEv.toRunningFired) &&
          okTrace (rest ++ l₂)) = true := h
      rw [Bool.and_eq_true] at h'
      have h1 := h'.1
      rw [List.all_append, Bool.and_eq_true] at h1
      show (rest.all (fun ev => ev != SimEv.toRunningFired) &&
          okTrace rest) = true
      rw [Bool.and_eq_true]
      exact ⟨h1.1, ih l₂ h'.2⟩
    | toRunningFired => exact ih l₂ h
    | tick => exact ih l₂ h
    | confettiFired => exact ih l₂ h
    | cancelClick => exact ih l₂ h

/-- `SimInv` holds after any schedule-consistent trace. -/
lemma simRun_inv :
    ∀ (evs : List SimEv) (s : SimState), SimInv s → okTrace evs = true →
      (s.progress = 100 → evs.all (fun e => e != SimEv.toRunningFired) = true) →
      SimInv (simRun s evs) := by
  intro evs
  induction evs with
  | nil => intro s h _ _; exact h
  | cons e rest ih =>
    intro s hInv hok h100
    have hrun : e = SimEv.toRunningFired → s.progress ≠ 100 := by
      intro he hp
      have hall := h100 hp
      rw [he] at hall
      simp at hall
    have hInv' := simStep_inv s e hInv hrun
    have hok' := okTrace_tail e rest hok
    have h100' : (simStep s e).progress = 100 →
        rest.all (fun ev => ev != SimEv.toRunningFired) = true := by
      intro hp'
      by_cases hp : s.progress = 100
      · have hall := h100 hp
        rw [List.all_cons, Bool.and_eq_true] at hall
        exact hall.2
      · have he := simStep_sets_100 s e hp hp'
        rw [he] at hok
        exact okTrace_completeFired_all rest hok
    exact ih (simStep s e) hInv' hok' h100'

/-- C9: along every schedule-consistent trace of one simulated submission,
progress is monotonically non-decreasing, capped at 96 while the 120 ms
interval is active, and reaches exactly 100 only at the completion-timer
step, which simultaneously synthesizes the fixed payload, sets the result
location and transitions to COMPLETED with the interval cleared. -/
theorem sim_progress_monotone_capped_completes (f r : String)
    (evs : List SimEv) (e : SimEv)
    (hok : okTrace (evs ++ [e]) = true) : simProgressSpec f r evs e := by
  have hok1 : okTrace evs = true := okTrace_append_left evs [e] hok
  have hInit : SimInv (simStart f r) :=
    Or.inl (show (0 : Nat) = simProgress 0 by decide)
  have hne100 : ¬(simStart f r).progress = 100 :=
    fun hp => absurd (show (0 : Nat) = 100 from hp) (by decide)
  have hInvPre := simRun_inv evs (simStart f r) hInit hok1
    (fun hp => absurd hp hne100)
  have hInvFull := simRun_inv (evs ++ [e]) (simStart f r) hInit hok
    (fun hp => absurd hp hne100)
  have hApp : simRun (simStart f r) (evs ++ [e]) =
      simStep (simRun (simStart f r) evs) e := by
    simp [simRun, List.foldl_append]
  have hMeta := simRun_meta (evs ++ [e]) (simStart f r)
  unfold simProgressSpec
  refine ⟨?_, ?_, ?_, ?_⟩
  · rw [hApp]
    exact simStep_mono _ e hInvPre
  · intro hI
    rcases hInvFull with h | ⟨-, -, -, -, hIA, -⟩
    · rw [h]
      exact simProgress_le_96 _
    · rw [hIA] at hI
      exact Bool.noConfusion hI
  · intro hp
    rcases hInvFull with h | ⟨-, hst, hrd, hru, hIA, -⟩
    · have h2 := simProgress_le_96 (simRun (simStart f r) (evs ++ [e])).k
      omega
    · refine ⟨hst, ?_, hru, hIA⟩
      rw [hrd, hMeta.1, hMeta.2]
      rfl
  · intro hne hp
    rw [hApp] at hp
    exact simStep_sets_100 _ e hne hp

/-- C9 check on a concrete consistent trace: RUNNING timeout, one tick,
then another tick. -/
theorem sim_progress_monotone_capped_completes_check :
    okTrace ([SimEv.toRunningFired, SimEv.tick] ++ [SimEv.tick]) = true ∧
    simProgressSpec "law.html" "MEDIUM" [SimEv.toRunningFired, SimEv.tick]
      SimEv.tick :=
  ⟨by decide,
   sim_progress_monotone_capped_completes "law.html" "MEDIUM"
     [SimEv.toRunningFired, SimEv.tick] SimEv.tick (by decide)⟩

/-- C7 check: concrete states in each relevant phase. -/
theorem grace_delay_and_start_code_contract_check :
    (uploadWait.phase = Phase.awaitUpload ∧
      liveStep uploadWait (LiveEv.uploadResp true 200 "") =
        (graceWait, [Obs.delay 800])) ∧
    (liveStep startWait (LiveEv.startResp 202)).1.status = some "RUNNING" ∧
    (liveStep startWait (LiveEv.startResp 500)).1.status = some "FAILED" :=
  ⟨⟨rfl, grace_delay_and_start_code_contract.1 uploadWait 200 "" rfl⟩,
   (grace_delay_and_start_code_contract.2.2.1 startWait rfl).1,
   (grace_delay_and_start_code_contract.2.2.2.1 startWait 500 rfl (by decide)).1⟩

end LawFrontend
